import Mathlib

/-!
Verification of the Recovery Operations orchestration engine of the
AI-Disaster-Guardian repository.

The orchestrator lives in src/views/RecoveryOps.tsx as a React component whose
state is held in five hooks: tasks, status, activeTaskIndex, logs and the two
voice flags (isListening, isProcessingVoice).  The external service functions
generateRecoveryPlan and processVoiceCommand live in the gemini service module.

We embed the component as an explicit state record (OpsState) together with a
total step function over an event alphabet.  Each event corresponds to one
handler of the source (or one asynchronous callback), applied atomically, which
matches the single-threaded cooperative scheduling of the browser event loop:
a handler body runs to completion before any other event is processed.

The per-task execution timer (the useEffect with dependencies
[status, activeTaskIndex, tasks], lines 28-40 of RecoveryOps.tsx) is embedded
as a pendingTimer field holding the identity of the currently scheduled
timeout.  React re-runs the effect, clearing the old timeout and possibly
scheduling a fresh one, whenever status or activeTaskIndex changes value or
setTasks was called (tasks is compared by reference, and every handler that
writes tasks passes a freshly built array).  The helper rearm performs exactly
this cleanup-and-reschedule at the end of every handler branch that writes one
of the three dependencies; branches that return without writing them leave the
timer alone, as React does.  A timerFire event carries the identity of the
timeout that elapsed and has an effect only when that timeout is still the
scheduled one, which models clearTimeout invalidation.

External collaborators (the planner and the command interpreter) are modelled
by the event payloads: planReady carries the parsed response of the planner
(none for the thrown/failed case, matching the catch branch of
generateRecoveryPlan), and voiceResult carries the parsed response of the
interpreter (none for the catch branch of processVoiceCommand, and optional
fields mirroring the result.updatedTasks and result.reply fallbacks).
-/

/-- Task status, from the RecoveryTask interface of src (types module):
status is one of pending, in-progress, completed. -/
inductive TaskStatus where
  | pending
  | inProgress
  | completed
deriving DecidableEq, Repr

/-- RecoveryTask, field for field as in the source interface. -/
structure RecoveryTask where
  id : String
  title : String
  description : String
  status : TaskStatus
  assignedAgent : String
  estimatedTime : String
deriving DecidableEq, Repr

/-- AgentStatus enum from the source (types module). -/
inductive AgentStatus where
  | IDLE
  | ANALYZING
  | PLANNING
  | EXECUTING
  | PAUSED
  | AWAITING_APPROVAL
  | COMPLETED
deriving DecidableEq, Repr

/-- A planner task as parsed from the planner response schema: the schema in
generateRecoveryPlan requests id, title, description, assignedAgent and
estimatedTime, with no status field (status is stamped afterwards). -/
structure RawTask where
  id : String
  title : String
  description : String
  assignedAgent : String
  estimatedTime : String
deriving DecidableEq, Repr

/-- Stamping status pending onto a parsed planner task, as in
tasks.map t to (spread of t with status pending) in generateRecoveryPlan. -/
def toPending (t : RawTask) : RecoveryTask :=
  { id := t.id, title := t.title, description := t.description,
    status := TaskStatus.pending, assignedAgent := t.assignedAgent,
    estimatedTime := t.estimatedTime }

/-- The fixed fallback queue returned by the catch branch of
generateRecoveryPlan in the gemini service module. -/
def defaultPlan : List RecoveryTask :=
  [ { id := "1", title := "Assess Damage",
      description := "Drone survey of affected area",
      status := TaskStatus.pending, assignedAgent := "Recon Unit",
      estimatedTime := "2 hours" },
    { id := "2", title := "Establish Comms",
      description := "Set up emergency mesh network",
      status := TaskStatus.pending, assignedAgent := "Comms Team",
      estimatedTime := "1 hour" },
    { id := "3", title := "Medical Triage",
      description := "Set up field hospital at safe zone",
      status := TaskStatus.pending, assignedAgent := "Medical Unit",
      estimatedTime := "3 hours" } ]

/-- generateRecoveryPlan from the gemini service module: on a successful
response the parsed tasks are returned with status pending stamped on each;
on any thrown error the fixed three-task default is returned.  The response
argument stands for the outcome of the external call: some for a parsed
array, none for the catch branch. -/
def generateRecoveryPlan (resp : Option (List RawTask)) : List RecoveryTask :=
  match resp with
  | some ts => ts.map toPending
  | none => defaultPlan

/-- processVoiceCommand from the gemini service module.  The resp argument
stands for the outcome of the external call: none is the catch branch, and
some carries the two optional fields of the parsed JSON, mirroring the
fallbacks result.updatedTasks or currentTasks and result.reply or the default
acknowledgement string. -/
def processVoiceCommand (currentTasks : List RecoveryTask)
    (resp : Option (Option (List RecoveryTask) × Option String)) :
    List RecoveryTask × String :=
  match resp with
  | some r => (r.1.getD currentTasks, r.2.getD "Command acknowledged.")
  | none => (currentTasks, "Signal interference. Command not processed.")

/-- Overwrite the status of the task at a natural-number index, leaving the
list unchanged when the index is out of range.  This is the effect of the
in-place newTasks[i].status assignments of the source on a copied array. -/
def setTaskStatus : List RecoveryTask → Nat → TaskStatus → List RecoveryTask
  | [], _, _ => []
  | t :: ts, 0, st => { t with status := st } :: ts
  | t :: ts, n + 1, st => t :: setTaskStatus ts n st

/-- The source indexes tasks with an Int-valued activeTaskIndex (sentinel -1).
A negative index reads or writes nothing. -/
def setTaskStatusI (ts : List RecoveryTask) (i : Int) (st : TaskStatus) :
    List RecoveryTask :=
  if i < 0 then ts else setTaskStatus ts i.toNat st

/-- Lookup of tasks[i] for an Int index; none when out of range (the source
would read undefined there, which no reachable handler branch does). -/
def getTaskI (ts : List RecoveryTask) (i : Int) : Option RecoveryTask :=
  if i < 0 then none else ts.get? i.toNat

/-- tasks[i].title for log messages. -/
def taskTitleI (ts : List RecoveryTask) (i : Int) : String :=
  ((getTaskI ts i).map RecoveryTask.title).getD "undefined"

/-- tasks[i].assignedAgent for log messages. -/
def taskAgentI (ts : List RecoveryTask) (i : Int) : String :=
  ((getTaskI ts i).map RecoveryTask.assignedAgent).getD "undefined"

/-- What a started speech recognition carries into its callbacks: the
handleVoiceCommand closure captures the tasks array of the render current at
click time.  ref is the identity of that array object (reference equality is
what React compares on setTasks and in the effect dependency check) and snap
is its value at capture time.  The captured array object can additionally see
in-place status mutations of task objects it shares with later spread-copied
arrays; the theorems below use snap only where the captured array is provably
still the current one (where the two coincide) or where only the reference
identity matters, so this difference is not load-bearing. -/
structure VoiceCapture where
  ref : Nat
  snap : List RecoveryTask
deriving DecidableEq, Repr

/-- The orchestrator state: the React component state hooks of RecoveryOps,
plus the bookkeeping needed to model the asynchronous machinery faithfully.
pendingVoice lists the speech recognitions that have been started and will
still deliver a result or error callback, each with the queue capture its
closure holds; planPending records that a plan request is awaiting its
response; pendingTimer holds the identity of the scheduled task-elapsed
timeout, with nextTimerId the next fresh identity; tasksRef is the identity
of the current tasks array object, and nextRef the next fresh identity --
every handler that calls setTasks with a freshly built array installs a
fresh identity, while the onresult write-back of a captured array restores
that array and its identity. -/
structure OpsState where
  tasks : List RecoveryTask
  status : AgentStatus
  activeTaskIndex : Int
  logs : List String
  isListening : Bool
  isProcessingVoice : Bool
  pendingVoice : List VoiceCapture
  planPending : Bool
  pendingTimer : Option Nat
  nextTimerId : Nat
  tasksRef : Nat
  nextRef : Nat
deriving DecidableEq, Repr

/-- The main-execution-loop effect of RecoveryOps (lines 28-40): whenever its
dependencies (status, activeTaskIndex, tasks) change, the pending timeout is
cleared and a new one is scheduled exactly when status is EXECUTING and
activeTaskIndex is less than the queue length.  Applied at the end of every
handler branch that writes one of the dependencies. -/
def rearm (s : OpsState) : OpsState :=
  if s.status = AgentStatus.EXECUTING ∧ s.activeTaskIndex < (s.tasks.length : Int) then
    { s with pendingTimer := some s.nextTimerId, nextTimerId := s.nextTimerId + 1 }
  else
    { s with pendingTimer := none }

/-- handleGeneratePlan before its await (RecoveryOps lines 42-45): only
reachable through the Generate Plan button, which is disabled unless status
is IDLE or COMPLETED. -/
def planRequest (ty loc : String) (s : OpsState) : OpsState :=
  if s.status = AgentStatus.IDLE ∨ s.status = AgentStatus.COMPLETED then
    rearm { s with
            status := AgentStatus.PLANNING
            planPending := true
            logs := s.logs ++
              [s!"[AI] Analyzing impact for {ty} in {loc}...",
               "[AI] Generating resource allocation strategy..."] }
  else s

/-- handleGeneratePlan after its await (RecoveryOps lines 47-51): the plan
replaces the queue, a log entry records the phase count, status returns to
IDLE and activeTaskIndex resets to -1. -/
def planReady (resp : Option (List RawTask)) (s : OpsState) : OpsState :=
  if s.planPending then
    let plan := generateRecoveryPlan resp
    let n := plan.length
    rearm { s with
            tasks := plan
            tasksRef := s.nextRef
            nextRef := s.nextRef + 1
            status := AgentStatus.IDLE
            activeTaskIndex := -1
            planPending := false
            logs := s.logs ++ [s!"[AI] Plan generated with {n} operational phases."] }
  else s

/-- toggleExecution (RecoveryOps lines 54-76), verbatim branch structure:
start fresh, resume, pause, otherwise nothing. -/
def toggleExecution (s : OpsState) : OpsState :=
  if s.status = AgentStatus.IDLE ∨ s.status = AgentStatus.PAUSED then
    if s.tasks.length = 0 then s
    else if s.activeTaskIndex = -1 then
      let newTasks := setTaskStatusI s.tasks 0 TaskStatus.inProgress
      let title := taskTitleI newTasks 0
      let agent := taskAgentI newTasks 0
      rearm { s with
              status := AgentStatus.EXECUTING
              activeTaskIndex := 0
              tasks := newTasks
              tasksRef := s.nextRef
              nextRef := s.nextRef + 1
              logs := s.logs ++
                ["[SYSTEM] Operation Commenced.",
                 s!"[STARTED] {title} - Agent: {agent}"] }
    else
      rearm { s with
              status := AgentStatus.EXECUTING
              logs := s.logs ++ ["[SYSTEM] Operation Resumed."] }
  else if s.status = AgentStatus.EXECUTING then
    rearm { s with
            status := AgentStatus.PAUSED
            logs := s.logs ++ ["[SYSTEM] Operation Paused by Commander."] }
  else s

/-- handleApproveTask (RecoveryOps lines 78-100): guarded only by
activeTaskIndex being -1; completes the active task, then either starts the
next one or declares the operation COMPLETED. -/
def handleApproveTask (s : OpsState) : OpsState :=
  if s.activeTaskIndex = -1 then s
  else
    let newTasks := setTaskStatusI s.tasks s.activeTaskIndex TaskStatus.completed
    let title := taskTitleI newTasks s.activeTaskIndex
    let logs1 := s.logs ++ [s!"[COMPLETED] {title} confirmed by Commander."]
    let nextIndex := s.activeTaskIndex + 1
    if nextIndex < (newTasks.length : Int) then
      let newTasks2 := setTaskStatusI newTasks nextIndex TaskStatus.inProgress
      let title2 := taskTitleI newTasks2 nextIndex
      let agent2 := taskAgentI newTasks2 nextIndex
      rearm { s with
              tasks := newTasks2
              tasksRef := s.nextRef
              nextRef := s.nextRef + 1
              activeTaskIndex := nextIndex
              status := AgentStatus.EXECUTING
              logs := logs1 ++ [s!"[STARTED] {title2} - Agent: {agent2}"] }
    else
      rearm { s with
              tasks := newTasks
              tasksRef := s.nextRef
              nextRef := s.nextRef + 1
              status := AgentStatus.COMPLETED
              logs := logs1 ++ ["[SYSTEM] All recovery operations completed successfully."] }

/-- The Pause / Review button of the Commander Approval modal (RecoveryOps
line 167): rendered only while status is AWAITING_APPROVAL and
activeTaskIndex is not -1; its handler is setStatus(PAUSED) with no log. -/
def pauseReview (s : OpsState) : OpsState :=
  if s.status = AgentStatus.AWAITING_APPROVAL ∧ s.activeTaskIndex ≠ -1 then
    rearm { s with status := AgentStatus.PAUSED }
  else s

/-- The elapsed task-execution timeout (RecoveryOps lines 32-36): has an
effect only when the timeout that elapsed is still the scheduled one
(clearTimeout in the effect cleanup invalidates superseded timeouts);
transitions to AWAITING_APPROVAL and logs the pending-approval entry. -/
def timerElapsed (t : Nat) (s : OpsState) : OpsState :=
  if s.pendingTimer = some t then
    let title := taskTitleI s.tasks s.activeTaskIndex
    { s with
      status := AgentStatus.AWAITING_APPROVAL
      pendingTimer := none
      logs := s.logs ++ [s!"[SYSTEM] Task \"{title}\" pending Commander approval."] }
  else s

/-- A click on the voice command button (RecoveryOps lines 256-270 and
handleVoiceCommand lines 103-146).  The button is disabled while isListening
or isProcessingVoice, so the click does nothing then; otherwise the handler
builds a recognition whose callbacks close over the current tasks array,
and calls recognition.start(), setting no component state synchronously --
isListening only becomes true in the asynchronous onstart callback. -/
def voiceClick (s : OpsState) : OpsState :=
  if s.isListening ∨ s.isProcessingVoice then s
  else
    { s with
      pendingVoice := s.pendingVoice ++ [{ ref := s.tasksRef, snap := s.tasks }] }

/-- The recognition onstart callback (RecoveryOps lines 116-119). -/
def voiceOnStart (s : OpsState) : OpsState :=
  if s.pendingVoice.length = 0 then s
  else
    { s with
      isListening := true
      logs := s.logs ++ ["[COMMS] Listening for voice command..."] }

/-- The recognition onend callback (RecoveryOps lines 121-123). -/
def voiceOnEnd (s : OpsState) : OpsState :=
  { s with isListening := false }

/-- The onerror callback of recognition r (RecoveryOps lines 139-143): that
recognition will deliver no result. -/
def voiceOnError (r : Nat) (msg : String) (s : OpsState) : OpsState :=
  match s.pendingVoice.get? r with
  | none => s
  | some _ =>
    { s with
      isListening := false
      pendingVoice := s.pendingVoice.eraseIdx r
      logs := s.logs ++ [s!"[COMMS] Voice signal lost. Error: {msg}"] }

/-- Does the parsed interpreter response carry an updatedTasks array?  When
it does, setTasks receives that freshly parsed array -- a new object, so the
write always re-renders and re-runs the execution-loop effect.  When it does
not (the catch branch or a response without updatedTasks), the source passes
back currentTasks, the very array object the closure captured at click
time. -/
def freshMergeResp
    (resp : Option (Option (List RecoveryTask) × Option String)) : Bool :=
  match resp with
  | some (some _, _) => true
  | _ => false

/-- The onresult callback of recognition r (RecoveryOps lines 125-137),
applied atomically: it logs the transcript and the analysis notice, invokes
the interpreter on the queue captured by the closure at click time (not the
current queue), writes the returned queue back with setTasks, logs the
reply, and finishes with isProcessingVoice false.  The write-back semantics
follow React: a freshly parsed updatedTasks array is a new object, so the
queue is replaced and the effect re-runs (timer cleared and possibly
re-armed); passing back the captured array object is a state bail-out when
that object is still the current one (nothing re-renders, the pending
timeout survives), and otherwise installs the captured array again, with its
old identity, re-running the effect.  activeTaskIndex is never written. -/
def voiceOnResult (r : Nat) (transcript : String)
    (resp : Option (Option (List RecoveryTask) × Option String))
    (s : OpsState) : OpsState :=
  match s.pendingVoice.get? r with
  | none => s
  | some cap =>
    let res := processVoiceCommand cap.snap resp
    let s1 := { s with
                isProcessingVoice := false
                pendingVoice := s.pendingVoice.eraseIdx r
                logs := s.logs ++
                  [s!"[USER VOICE] \"{transcript}\"",
                   "[AI] Analyzing intent...",
                   s!"[AI REASONING] {res.2}"] }
    if freshMergeResp resp then
      rearm { s1 with
              tasks := res.1
              tasksRef := s.nextRef
              nextRef := s.nextRef + 1 }
    else if cap.ref = s.tasksRef then s1
    else
      rearm { s1 with
              tasks := cap.snap
              tasksRef := cap.ref }

/-- The event alphabet: one constructor per handler or asynchronous callback
of the orchestrator, with payloads standing for external inputs; r selects
which started recognition a callback belongs to. -/
inductive Event where
  | planRequestE (ty loc : String)
  | planReadyE (resp : Option (List RawTask))
  | toggleE
  | approveE
  | pauseReviewE
  | timerFireE (t : Nat)
  | voiceClickE
  | voiceStartE
  | voiceEndE
  | voiceErrorE (r : Nat) (msg : String)
  | voiceResultE (r : Nat) (transcript : String)
      (resp : Option (Option (List RecoveryTask) × Option String))
deriving DecidableEq, Repr

/-- One atomic step of the orchestrator. -/
def step (s : OpsState) (e : Event) : OpsState :=
  match e with
  | Event.planRequestE ty loc => planRequest ty loc s
  | Event.planReadyE resp => planReady resp s
  | Event.toggleE => toggleExecution s
  | Event.approveE => handleApproveTask s
  | Event.pauseReviewE => pauseReview s
  | Event.timerFireE t => timerElapsed t s
  | Event.voiceClickE => voiceClick s
  | Event.voiceStartE => voiceOnStart s
  | Event.voiceEndE => voiceOnEnd s
  | Event.voiceErrorE r msg => voiceOnError r msg s
  | Event.voiceResultE r tr resp => voiceOnResult r tr resp s

/-- The initial component state of RecoveryOps: empty queue, IDLE,
activeTaskIndex -1, empty log, no voice activity, nothing scheduled. -/
def initState : OpsState :=
  { tasks := [], status := AgentStatus.IDLE, activeTaskIndex := -1,
    logs := [], isListening := false, isProcessingVoice := false,
    pendingVoice := [], planPending := false, pendingTimer := none,
    nextTimerId := 0, tasksRef := 0, nextRef := 1 }

/-- States reachable from the initial state through any event sequence. -/
inductive Reach : OpsState → Prop where
  | init : Reach initState
  | next {s : OpsState} (h : Reach s) (e : Event) : Reach (step s e)

/-- An event that is not a command merge (not a voiceResult). -/
def NonMergeEvent : Event → Prop
  | Event.voiceResultE _ _ _ => False
  | _ => True

/-- States reachable without ever applying a command merge. -/
inductive ReachNM : OpsState → Prop where
  | init : ReachNM initState
  | next {s : OpsState} (h : ReachNM s) (e : Event) (he : NonMergeEvent e) :
      ReachNM (step s e)

/-! ### Basic lemmas about the timer re-arm and the queue update helper -/

@[simp] theorem rearm_tasks (s : OpsState) : (rearm s).tasks = s.tasks := by
  unfold rearm; split <;> rfl

@[simp] theorem rearm_status (s : OpsState) : (rearm s).status = s.status := by
  unfold rearm; split <;> rfl

@[simp] theorem rearm_activeTaskIndex (s : OpsState) :
    (rearm s).activeTaskIndex = s.activeTaskIndex := by
  unfold rearm; split <;> rfl

@[simp] theorem rearm_logs (s : OpsState) : (rearm s).logs = s.logs := by
  unfold rearm; split <;> rfl

@[simp] theorem rearm_pendingVoice (s : OpsState) :
    (rearm s).pendingVoice = s.pendingVoice := by
  unfold rearm; split <;> rfl

@[simp] theorem rearm_tasksRef (s : OpsState) :
    (rearm s).tasksRef = s.tasksRef := by
  unfold rearm; split <;> rfl

@[simp] theorem rearm_nextRef (s : OpsState) :
    (rearm s).nextRef = s.nextRef := by
  unfold rearm; split <;> rfl

@[simp] theorem rearm_planPending (s : OpsState) :
    (rearm s).planPending = s.planPending := by
  unfold rearm; split <;> rfl

@[simp] theorem rearm_isListening (s : OpsState) :
    (rearm s).isListening = s.isListening := by
  unfold rearm; split <;> rfl

@[simp] theorem rearm_isProcessingVoice (s : OpsState) :
    (rearm s).isProcessingVoice = s.isProcessingVoice := by
  unfold rearm; split <;> rfl

@[simp] theorem length_setTaskStatus (ts : List RecoveryTask) (i : Nat) (st : TaskStatus) :
    (setTaskStatus ts i st).length = ts.length := by
  induction ts generalizing i with
  | nil => rfl
  | cons t ts ih =>
    cases i with
    | zero => rfl
    | succ n => simp [setTaskStatus, ih]

theorem get?_setTaskStatus (ts : List RecoveryTask) (i j : Nat) (st : TaskStatus) :
    (setTaskStatus ts i st).get? j =
      if i = j then (ts.get? j).map (fun t => { t with status := st }) else ts.get? j := by
  induction ts generalizing i j with
  | nil => simp [setTaskStatus]
  | cons t ts ih =>
    cases i with
    | zero =>
      cases j with
      | zero => simp [setTaskStatus]
      | succ m => simp [setTaskStatus]
    | succ n =>
      cases j with
      | zero => simp [setTaskStatus]
      | succ m =>
        simp only [setTaskStatus, List.get?]
        rw [ih]
        by_cases h : n = m
        · simp [h]
        · simp [h, fun hc => h (Nat.succ_injective hc)]

/-! ### Shared concrete states used by witnesses and counterexamples -/

/-- A fresh plan-failure run: generate a plan for Flood in X with the planner
failing, from the initial state. -/
def sPlanned : OpsState :=
  step (step initState (Event.planRequestE "Flood" "X")) (Event.planReadyE none)

/-- Execution started on the fallback plan. -/
def sExec : OpsState := step sPlanned Event.toggleE

/-- First task awaiting approval. -/
def sAwait : OpsState := step sExec (Event.timerFireE 0)

/-- Second task in progress after the first approval. -/
def sSecond : OpsState := step sAwait Event.approveE

/-- A recognition has been started (the click handler returned, onstart has
not fired yet). -/
def sClicked : OpsState := step initState Event.voiceClickE

/-- The onstart callback has fired: the component is listening. -/
def sListening : OpsState := step sClicked Event.voiceStartE

theorem reach_sPlanned : Reach sPlanned :=
  Reach.next (Reach.next Reach.init (Event.planRequestE "Flood" "X")) (Event.planReadyE none)

theorem reach_sExec : Reach sExec := Reach.next reach_sPlanned Event.toggleE

theorem reach_sAwait : Reach sAwait := Reach.next reach_sExec (Event.timerFireE 0)

theorem reach_sSecond : Reach sSecond := Reach.next reach_sAwait Event.approveE

theorem reachNM_sPlanned : ReachNM sPlanned :=
  ReachNM.next (ReachNM.next ReachNM.init (Event.planRequestE "Flood" "X") trivial)
    (Event.planReadyE none) trivial

theorem reachNM_sExec : ReachNM sExec :=
  ReachNM.next reachNM_sPlanned Event.toggleE trivial

/-! ### Claim C10: the start/pause toggle outside its enabled situations -/

/-- Claim C10: calling the start/pause toggle while the operation state is
PLANNING, AWAITING_APPROVAL, or COMPLETED (or while the state is IDLE or
PAUSED with an empty queue) changes nothing: operation state, task queue,
activeTaskIndex, and log are all left unchanged. -/
theorem C10_toggle_noop (s : OpsState)
    (h : s.status = AgentStatus.PLANNING ∨ s.status = AgentStatus.AWAITING_APPROVAL ∨
         s.status = AgentStatus.COMPLETED ∨
         ((s.status = AgentStatus.IDLE ∨ s.status = AgentStatus.PAUSED) ∧ s.tasks = [])) :
    step s Event.toggleE = s := by
  rcases h with h | h | h | ⟨h, htasks⟩
  · simp [step, toggleExecution, h]
  · simp [step, toggleExecution, h]
  · simp [step, toggleExecution, h]
  · rcases h with h | h <;> simp [step, toggleExecution, h, htasks]

/-- Witness for C10 at the initial state (IDLE with an empty queue). -/
theorem C10_witness : step initState Event.toggleE = initState :=
  C10_toggle_noop initState (Or.inr (Or.inr (Or.inr ⟨Or.inl rfl, rfl⟩)))

/-! ### Claim C2: approve outside AWAITING_APPROVAL -/

/-- Counterexample to claim C2 as stated: sExec is a reachable state whose
operation state is EXECUTING (not AWAITING_APPROVAL), yet approve() changes
the task queue there (it completes the first task and starts the second),
because handleApproveTask only guards on activeTaskIndex being -1. -/
theorem C2_counterexample :
    Reach sExec ∧ sExec.status = AgentStatus.EXECUTING ∧
      (step sExec Event.approveE).tasks ≠ sExec.tasks :=
  ⟨reach_sExec, by decide, by decide⟩

/-- Claim C2 as amended: approve() is a no-op (the whole state, in particular
the task queue and activeTaskIndex, is unchanged) exactly when its own guard
holds, namely activeTaskIndex = -1; in reachable states with activeTaskIndex
at least 0 and status other than AWAITING_APPROVAL (such as EXECUTING), it
completes the active task and advances just as it does under approval. -/
theorem C2_approve_noop (s : OpsState) (h : s.activeTaskIndex = -1) :
    step s Event.approveE = s := by
  simp [step, handleApproveTask, h]

/-- Witness for C2 at the initial state (activeTaskIndex is -1). -/
theorem C2_witness : step initState Event.approveE = initState :=
  C2_approve_noop initState rfl

/-! ### Claim C5: busy rejection of a second voice command -/

/-- Counterexample to claim C5 as stated: after one click the recognition has
been started (one command is outstanding) but isListening only becomes true
in the asynchronous onstart callback, so a second submission arriving before
onstart is not rejected: it starts a second recognition and two commands are
then outstanding at once. -/
theorem C5_counterexample :
    sClicked.pendingVoice.length = 1 ∧ step sClicked Event.voiceClickE ≠ sClicked ∧
      (step sClicked Event.voiceClickE).pendingVoice.length = 2 := by
  refine ⟨by decide, ?_, by decide⟩
  decide

/-- Claim C5 as amended: a second command submission is rejected (the click is
a no-op) exactly while isListening or isProcessingVoice is set; since those
flags are only set inside the asynchronous onstart/onresult callbacks, a
submission in the window between recognition.start() and onstart is accepted,
so two command-driven queue replacements can be in flight at once. -/
theorem C5_busy_rejected (s : OpsState)
    (h : s.isListening = true ∨ s.isProcessingVoice = true) :
    step s Event.voiceClickE = s := by
  rcases h with h | h <;> simp [step, voiceClick, h]

/-- Witness for C5 in a listening state. -/
theorem C5_witness : step sListening Event.voiceClickE = sListening :=
  C5_busy_rejected sListening (Or.inl (by decide))

/-! ### Claim C6: interpreter failure and the queue -/

/-- A recognition started at the initial state (capturing the empty queue)
that is still outstanding when a generated plan replaces the queue. -/
def sPlanWhileListening : OpsState :=
  step (step (step initState Event.voiceClickE) (Event.planRequestE "Flood" "X"))
    (Event.planReadyE none)

theorem reach_sPlanWhileListening : Reach sPlanWhileListening :=
  Reach.next
    (Reach.next (Reach.next Reach.init Event.voiceClickE)
      (Event.planRequestE "Flood" "X"))
    (Event.planReadyE none)

/-- Counterexample to claim C6 as stated: a command is submitted at the
initial state (the closure captures the then-current empty queue), a plan
is generated while the recognition is outstanding (queue becomes the 3-task
default, a fresh array), and then the interpreter fails.  The failure path
executes setTasks on the captured array, so the queue after the failing
call is the stale empty snapshot, not the 3-task queue it held before the
call: the queue is not byte-for-byte unchanged. -/
theorem C6_counterexample :
    Reach sPlanWhileListening ∧
    sPlanWhileListening.tasks = defaultPlan ∧
    (step sPlanWhileListening (Event.voiceResultE 0 "reassign units" none)).tasks ≠
      sPlanWhileListening.tasks ∧
    (step sPlanWhileListening (Event.voiceResultE 0 "reassign units" none)).tasks = [] :=
  ⟨reach_sPlanWhileListening, by decide, by decide, by decide⟩

/-- Claim C6 as amended: for every command submission where the interpreter
fails (the catch branch of processVoiceCommand), the failure reply is
appended to the log and the operation state is unchanged; the failure path
writes back the queue captured when the recognition started, so the task
queue is unchanged whenever that captured array is still the current one
(no queue write intervened between submission and result) -- an intervening
replacement is instead reverted to the captured snapshot, as in the
counterexample. -/
theorem C6_interpreter_failure (s : OpsState) (r : Nat) (tr : String)
    (cap : VoiceCapture) (h : s.pendingVoice.get? r = some cap) :
    (step s (Event.voiceResultE r tr none)).status = s.status ∧
    (step s (Event.voiceResultE r tr none)).logs = s.logs ++
      [s!"[USER VOICE] \"{tr}\"",
       "[AI] Analyzing intent...",
       "[AI REASONING] Signal interference. Command not processed."] ∧
    (cap.ref = s.tasksRef →
      (step s (Event.voiceResultE r tr none)).tasks = s.tasks) := by
  refine ⟨?_, ?_, ?_⟩
  · simp only [step, voiceOnResult, h, freshMergeResp]
    rw [if_neg Bool.false_ne_true]
    split
    · rfl
    · simp
  · simp only [step, voiceOnResult, h, freshMergeResp]
    rw [if_neg Bool.false_ne_true]
    split
    · rfl
    · simp only [rearm_logs]
      rfl
  · intro href
    simp only [step, voiceOnResult, h, freshMergeResp]
    rw [if_neg Bool.false_ne_true, if_pos href]

/-- Witness for C6: a failing interpreter call right after a click, with no
intervening queue write (the captured array is still the current one). -/
theorem C6_witness :
    (step sClicked (Event.voiceResultE 0 "halt" none)).status = sClicked.status ∧
    (step sClicked (Event.voiceResultE 0 "halt" none)).logs = sClicked.logs ++
      ["[USER VOICE] \"halt\"",
       "[AI] Analyzing intent...",
       "[AI REASONING] Signal interference. Command not processed."] ∧
    ({ ref := 0, snap := [] } : VoiceCapture).ref = sClicked.tasksRef ∧
    (step sClicked (Event.voiceResultE 0 "halt" none)).tasks = sClicked.tasks := by
  have h := C6_interpreter_failure sClicked 0 "halt" { ref := 0, snap := [] } (by decide)
  exact ⟨h.1, h.2.1, by decide, h.2.2 (by decide)⟩

/-! ### Claim C3: command merge and activeIndex -/

/-- A one-task replacement queue supplied by a command. -/
def oneTaskList : List RecoveryTask :=
  [ { id := "9", title := "Regroup", description := "Consolidate all units",
      status := TaskStatus.pending, assignedAgent := "HQ",
      estimatedTime := "1 hour" } ]

/-- A successful command merge shrinking the queue below the active index,
from the reachable state sSecond (activeTaskIndex 1 on a 3-task queue). -/
def sShrunk : OpsState :=
  step (step sSecond Event.voiceClickE)
    (Event.voiceResultE 0 "cut" (some (some oneTaskList, some "Done.")))

theorem reach_sShrunk : Reach sShrunk :=
  Reach.next (Reach.next reach_sSecond Event.voiceClickE)
    (Event.voiceResultE 0 "cut" (some (some oneTaskList, some "Done.")))

/-- Counterexample to claim C3 as stated: in the reachable state sShrunk a
successful command interpretation has replaced a 3-task queue (active index
1) by a 1-task queue, and activeTaskIndex was not clamped into the valid
index range of the new queue: it is still 1, one past the last index. -/
theorem C3_counterexample :
    Reach sShrunk ∧ sShrunk.tasks.length = 1 ∧ sShrunk.activeTaskIndex = 1 :=
  ⟨reach_sShrunk, by decide, by decide⟩

/-- Claim C3 as amended: when a command interpretation succeeds, the returned
queue fully replaces the current task list and activeTaskIndex is left
completely unchanged; no clamping or any other reconciliation of
activeTaskIndex is performed, even when the new queue is shorter. -/
theorem C3_merge_verbatim (s : OpsState) (r : Nat) (tr reply : String)
    (newTasks : List RecoveryTask) (cap : VoiceCapture)
    (h : s.pendingVoice.get? r = some cap) :
    (step s (Event.voiceResultE r tr (some (some newTasks, some reply)))).tasks =
      newTasks ∧
    (step s (Event.voiceResultE r tr (some (some newTasks, some reply)))).activeTaskIndex =
      s.activeTaskIndex := by
  constructor <;>
    · simp only [step, voiceOnResult, h, freshMergeResp, processVoiceCommand]
      simp

/-- Witness for C3: a merge right after a click replaces the queue verbatim. -/
theorem C3_witness :
    (step sClicked (Event.voiceResultE 0 "cut" (some (some oneTaskList, some "Done.")))).tasks =
      oneTaskList ∧
    (step sClicked (Event.voiceResultE 0 "cut" (some (some oneTaskList, some "Done.")))).activeTaskIndex =
      sClicked.activeTaskIndex :=
  C3_merge_verbatim sClicked 0 "cut" "Done." oneTaskList { ref := 0, snap := [] } (by decide)

/-! ### Claim C7: planner failure fallback -/

/-- Recognizer for SYSTEM-category log entries: the source tags categories by
the bracketed prefix of the message (the log renderer at RecoveryOps line 237
dispatches on these prefixes).  Stated over the character list so that it
evaluates by kernel reduction. -/
def isSystemEntry (m : String) : Bool :=
  decide (m.data.take 8 = "[SYSTEM]".data)

/-- Counterexample to claim C7 as stated: in the scenario (planner fails
during generatePlan for Flood in X, starting from the initial state) the
queue does become the 3-task default with activeTaskIndex -1 and state IDLE,
but no SYSTEM-category log entry is recorded: every entry appended by the
plan path carries the AI prefix, so the SYSTEM-entry count is 0, not 1. -/
theorem C7_counterexample :
    sPlanned.tasks = defaultPlan ∧ sPlanned.status = AgentStatus.IDLE ∧
    sPlanned.activeTaskIndex = -1 ∧
    (sPlanned.logs.filter isSystemEntry).length = 0 := by
  exact ⟨by decide, by decide, by decide, by decide⟩

/-- Claim C7 as amended: if the external planner fails during generatePlan
(here for Flood in X), the queue becomes the fixed 3-task default with every
task pending, activeTaskIndex is reset to -1, the state returns to IDLE, and
exactly three AI-category log entries are recorded, none of them
SYSTEM-category; the failure is never surfaced as a fault. -/
theorem C7_planner_failure (s : OpsState)
    (h : s.status = AgentStatus.IDLE ∨ s.status = AgentStatus.COMPLETED) :
    (step (step s (Event.planRequestE "Flood" "X")) (Event.planReadyE none)).tasks =
      defaultPlan ∧
    (step (step s (Event.planRequestE "Flood" "X")) (Event.planReadyE none)).activeTaskIndex =
      -1 ∧
    (step (step s (Event.planRequestE "Flood" "X")) (Event.planReadyE none)).status =
      AgentStatus.IDLE ∧
    (step (step s (Event.planRequestE "Flood" "X")) (Event.planReadyE none)).logs =
      s.logs ++ ["[AI] Analyzing impact for Flood in X...",
                 "[AI] Generating resource allocation strategy...",
                 "[AI] Plan generated with 3 operational phases."] ∧
    ((step (step s (Event.planRequestE "Flood" "X")) (Event.planReadyE none)).logs.filter
        isSystemEntry).length =
      (s.logs.filter isSystemEntry).length := by
  have hcond : s.status = AgentStatus.IDLE ∨ s.status = AgentStatus.COMPLETED := h
  have hlogs : (step (step s (Event.planRequestE "Flood" "X")) (Event.planReadyE none)).logs =
      s.logs ++ ["[AI] Analyzing impact for Flood in X...",
                 "[AI] Generating resource allocation strategy...",
                 "[AI] Plan generated with 3 operational phases."] := by
    simp only [step, planRequest, planReady, generateRecoveryPlan, hcond, if_pos,
      ite_true, or_true, true_or, rearm_logs, rearm_planPending, List.append_assoc]
    rfl
  refine ⟨?_, ?_, ?_, hlogs, ?_⟩
  · simp [step, planRequest, planReady, generateRecoveryPlan, hcond]
  · simp [step, planRequest, planReady, generateRecoveryPlan, hcond]
  · simp [step, planRequest, planReady, generateRecoveryPlan, hcond]
  · rw [hlogs, List.filter_append, List.length_append]
    norm_num
    exact ⟨by decide, by decide, by decide⟩

/-- Witness for C7: the scenario run from the initial state (status IDLE). -/
theorem C7_witness :
    (initState.status = AgentStatus.IDLE ∨ initState.status = AgentStatus.COMPLETED) ∧
    (step (step initState (Event.planRequestE "Flood" "X")) (Event.planReadyE none)).tasks =
      defaultPlan ∧
    (step (step initState (Event.planRequestE "Flood" "X")) (Event.planReadyE none)).status =
      AgentStatus.IDLE :=
  ⟨Or.inl rfl,
   (C7_planner_failure initState (Or.inl rfl)).1,
   (C7_planner_failure initState (Or.inl rfl)).2.2.1⟩

/-! ### Reachability invariants -/

/-- Structural invariant of reachable states: the active index never goes
below -1, an EXECUTING state always has a started task (index at least 0),
and a scheduled timeout identity is always strictly below the next fresh
identity (so re-arming always picks a fresh one). -/
def StateInv (s : OpsState) : Prop :=
  -1 ≤ s.activeTaskIndex ∧
  (s.status = AgentStatus.EXECUTING → 0 ≤ s.activeTaskIndex) ∧
  (∀ t, s.pendingTimer = some t → t < s.nextTimerId)

theorem rearm_timer_fresh (s : OpsState) :
    ∀ t, (rearm s).pendingTimer = some t → t < (rearm s).nextTimerId := by
  intro t
  unfold rearm
  split <;> simp
  omega

theorem stateInv_step (s : OpsState) (e : Event) (h : StateInv s) :
    StateInv (step s e) := by
  obtain ⟨h1, h2, h3⟩ := h
  cases e with
  | planRequestE ty loc =>
    simp only [step, planRequest]
    split
    · exact ⟨by simpa using h1, by simp, rearm_timer_fresh _⟩
    · exact ⟨h1, h2, h3⟩
  | planReadyE resp =>
    simp only [step, planReady]
    split
    · exact ⟨by simp, by simp, rearm_timer_fresh _⟩
    · exact ⟨h1, h2, h3⟩
  | toggleE =>
    simp only [step, toggleExecution]
    split
    · split
      · exact ⟨h1, h2, h3⟩
      · split
        · exact ⟨by simp, by simp, rearm_timer_fresh _⟩
        · refine ⟨by simpa using h1, ?_, rearm_timer_fresh _⟩
          intro
          simp only [rearm_activeTaskIndex]
          omega
    · split
      · exact ⟨by simpa using h1, by simp, rearm_timer_fresh _⟩
      · exact ⟨h1, h2, h3⟩
  | approveE =>
    simp only [step, handleApproveTask]
    split
    · exact ⟨h1, h2, h3⟩
    · split
      · refine ⟨?_, ?_, rearm_timer_fresh _⟩
        · simp only [rearm_activeTaskIndex]
          omega
        · intro
          simp only [rearm_activeTaskIndex]
          omega
      · exact ⟨by simpa using h1, by simp, rearm_timer_fresh _⟩
  | pauseReviewE =>
    simp only [step, pauseReview]
    split
    · exact ⟨by simpa using h1, by simp, rearm_timer_fresh _⟩
    · exact ⟨h1, h2, h3⟩
  | timerFireE t =>
    simp only [step, timerElapsed]
    split
    · exact ⟨by simpa using h1, by simp, by simp⟩
    · exact ⟨h1, h2, h3⟩
  | voiceClickE =>
    simp only [step, voiceClick]
    split
    · exact ⟨h1, h2, h3⟩
    · exact ⟨h1, h2, h3⟩
  | voiceStartE =>
    simp only [step, voiceOnStart]
    split
    · exact ⟨h1, h2, h3⟩
    · exact ⟨by simpa using h1, by simpa using h2, by simpa using h3⟩
  | voiceEndE =>
    exact ⟨by simpa using h1, by simpa using h2, by simpa using h3⟩
  | voiceErrorE r msg =>
    simp only [step, voiceOnError]
    split
    · exact ⟨h1, h2, h3⟩
    · exact ⟨by simpa using h1, by simpa using h2, by simpa using h3⟩
  | voiceResultE r tr resp =>
    simp only [step, voiceOnResult]
    split
    · exact ⟨h1, h2, h3⟩
    · split
      · exact ⟨by simpa using h1, by simpa using h2, rearm_timer_fresh _⟩
      · split
        · exact ⟨by simpa using h1, by simpa using h2, by simpa using h3⟩
        · exact ⟨by simpa using h1, by simpa using h2, rearm_timer_fresh _⟩

/-- Every reachable state satisfies the structural invariant. -/
theorem reach_stateInv {s : OpsState} (h : Reach s) : StateInv s := by
  induction h with
  | init => exact ⟨by decide, by decide, by simp [initState]⟩
  | next h e ih => exact stateInv_step _ e ih

/-! ### Claim C9: pause then resume is a frame on queue and index -/

/-- Claim C9: for every reachable state whose operation state is EXECUTING,
pressing the toggle (pause) and pressing it again (resume) leaves
activeTaskIndex and the entire task list, hence every task status, equal to
their values before the pause; only the operation state and the log change
in between. -/
theorem C9_pause_resume (s : OpsState) (hr : Reach s)
    (he : s.status = AgentStatus.EXECUTING) :
    (step (step s Event.toggleE) Event.toggleE).activeTaskIndex = s.activeTaskIndex ∧
    (step (step s Event.toggleE) Event.toggleE).tasks = s.tasks := by
  have hidx : 0 ≤ s.activeTaskIndex := (reach_stateInv hr).2.1 he
  have hne : ¬ s.activeTaskIndex = -1 := by omega
  have h1 : step s Event.toggleE =
      rearm { s with
              status := AgentStatus.PAUSED
              logs := s.logs ++ ["[SYSTEM] Operation Paused by Commander."] } := by
    simp [step, toggleExecution, he]
  rw [h1]
  by_cases hlen : s.tasks.length = 0
  · constructor <;> simp [step, toggleExecution, hlen]
  · constructor <;> simp [step, toggleExecution, hlen, hne]

/-- Witness for C9 in the reachable executing state sExec. -/
theorem C9_witness :
    (step (step sExec Event.toggleE) Event.toggleE).activeTaskIndex =
      sExec.activeTaskIndex ∧
    (step (step sExec Event.toggleE) Event.toggleE).tasks = sExec.tasks :=
  C9_pause_resume sExec reach_sExec (by decide)

/-! ### Claim C8: a superseded timer event is a no-op -/

theorem rearm_pendingTimer_cases (s : OpsState) :
    (rearm s).pendingTimer = none ∨ (rearm s).pendingTimer = some s.nextTimerId := by
  unfold rearm
  split <;> simp

/-- The ways the schedule of a pending task-elapsed timeout is superseded
before it fires: the operator pauses from EXECUTING, a command result whose
setTasks write actually goes through (a freshly parsed updatedTasks array,
or a write-back of a captured array that is no longer the current one --
every command that mutates the queue falls in this class, since a mutation
necessarily installs a different array object, while the same-reference
bail-out of a non-mutating failure does not and leaves the timeout alive),
or a new plan arrives.  In each case an effect dependency changes, so React
runs the cleanup and clears the old timeout. -/
def LeavesExecuting (s : OpsState) (e : Event) : Prop :=
  (e = Event.toggleE ∧ s.status = AgentStatus.EXECUTING) ∨
  (∃ r tr resp cap, e = Event.voiceResultE r tr resp ∧
    s.pendingVoice.get? r = some cap ∧
    (freshMergeResp resp = true ∨ cap.ref ≠ s.tasksRef)) ∨
  (∃ resp, e = Event.planReadyE resp ∧ s.planPending = true)

/-- A timer-elapsed event whose timeout is no longer the scheduled one
changes nothing. -/
theorem timerFire_stale_noop (s2 : OpsState) (t : Nat)
    (h : ¬ s2.pendingTimer = some t) :
    step s2 (Event.timerFireE t) = s2 := by
  simp [step, timerElapsed, h]

theorem voiceOnResult_pendingTimer (r : Nat) (tr : String)
    (resp : Option (Option (List RecoveryTask) × Option String)) (s : OpsState)
    (cap : VoiceCapture) (h : s.pendingVoice.get? r = some cap)
    (hw : freshMergeResp resp = true ∨ cap.ref ≠ s.tasksRef) :
    (voiceOnResult r tr resp s).pendingTimer = none ∨
    (voiceOnResult r tr resp s).pendingTimer = some s.nextTimerId := by
  rcases hw with hw | hw
  · simp only [voiceOnResult, h, hw, ite_true]
    exact rearm_pendingTimer_cases _
  · simp only [voiceOnResult, h]
    split
    · exact rearm_pendingTimer_cases _
    · exact rearm_pendingTimer_cases _

/-- Claim C8: in every reachable state with a scheduled task-elapsed timeout,
if pause, a queue-writing command result (which every mutating command is),
or a new plan is applied before the timeout fires, the stale elapsed event
is a no-op afterwards: it changes nothing (state, task queue,
activeTaskIndex all unchanged), because the effect cleanup cleared the old
timeout and any fresh one has a new identity. -/
theorem C8_stale_timer (s : OpsState) (t : Nat) (e : Event) (hr : Reach s)
    (hp : s.pendingTimer = some t) (hl : LeavesExecuting s e) :
    step (step s e) (Event.timerFireE t) = step s e := by
  have htf : t < s.nextTimerId := (reach_stateInv hr).2.2 t hp
  have hne : ¬ (step s e).pendingTimer = some t := by
    rcases hl with ⟨he, hx⟩ | ⟨r, tr, resp, cap, he, hcap, hw⟩ | ⟨resp, he, hx⟩
    · subst he
      simp [step, toggleExecution, hx, rearm]
    · subst he
      rcases voiceOnResult_pendingTimer r tr resp s cap hcap hw with hc | hc
      · show ¬ (voiceOnResult r tr resp s).pendingTimer = some t
        rw [hc]
        simp
      · show ¬ (voiceOnResult r tr resp s).pendingTimer = some t
        rw [hc]
        simp
        omega
    · subst he
      simp [step, planReady, hx, rearm]
  exact timerFire_stale_noop _ t hne

/-- Witness for C8: pausing sExec (timeout 0 scheduled) makes the stale
elapsed event a no-op. -/
theorem C8_witness :
    step (step sExec Event.toggleE) (Event.timerFireE 0) = step sExec Event.toggleE :=
  C8_stale_timer sExec 0 Event.toggleE reach_sExec (by decide) (Or.inl ⟨rfl, by decide⟩)

/-! ### Claim C4: at most one task in progress -/

theorem get?_setTaskStatusI (ts : List RecoveryTask) (i : Int) (j : Nat)
    (st : TaskStatus) (hi : 0 ≤ i) :
    (setTaskStatusI ts i st).get? j =
      if i = (j : Int) then (ts.get? j).map (fun t => { t with status := st })
      else ts.get? j := by
  unfold setTaskStatusI
  rw [if_neg (by omega)]
  rw [get?_setTaskStatus]
  by_cases hc : i.toNat = j
  · rw [if_pos hc, if_pos (by omega)]
  · rw [if_neg hc, if_neg (by omega)]

theorem generateRecoveryPlan_status (resp : Option (List RawTask)) {i : Nat}
    {t : RecoveryTask} (h : (generateRecoveryPlan resp).get? i = some t) :
    t.status = TaskStatus.pending := by
  have hm : t ∈ generateRecoveryPlan resp := List.get?_mem h
  cases resp with
  | some ts =>
    simp only [generateRecoveryPlan, List.mem_map] at hm
    obtain ⟨raw, _, rfl⟩ := hm
    rfl
  | none =>
    have hall : ∀ x ∈ defaultPlan, x.status = TaskStatus.pending := by decide
    exact hall t hm

/-- The inductive form of the single-active-task invariant: every task with
status in-progress sits at the active index. -/
def InProgAt (s : OpsState) : Prop :=
  ∀ (i : Nat) (t : RecoveryTask), s.tasks.get? i = some t →
    t.status = TaskStatus.inProgress → (i : Int) = s.activeTaskIndex

theorem inProgAt_of_frame {s s2 : OpsState} (h : InProgAt s)
    (ht : s2.tasks = s.tasks) (hi : s2.activeTaskIndex = s.activeTaskIndex) :
    InProgAt s2 := by
  intro i t hget hst
  rw [ht] at hget
  rw [hi]
  exact h i t hget hst

theorem reachNM_reach {s : OpsState} (h : ReachNM s) : Reach s := by
  induction h with
  | init => exact Reach.init
  | next h e he ih => exact Reach.next ih e

theorem reachNM_inProgAt {s : OpsState} (h : ReachNM s) : InProgAt s := by
  induction h with
  | init =>
    intro i t hget hst
    simp [initState] at hget
  | next h e he ih =>
    rename_i s0
    have hinv : StateInv s0 := reach_stateInv (reachNM_reach h)
    cases e with
    | voiceResultE r tr resp => exact he.elim
    | planRequestE ty loc =>
      simp only [step, planRequest]
      split
      · exact inProgAt_of_frame ih (by simp) (by simp)
      · exact ih
    | planReadyE resp =>
      simp only [step, planReady]
      split
      · intro i t hget hst
        simp only [rearm_tasks] at hget
        have hp := generateRecoveryPlan_status resp hget
        rw [hp] at hst
        exact absurd hst (by decide)
      · exact ih
    | toggleE =>
      simp only [step, toggleExecution]
      split
      · split
        · exact ih
        · split
          · intro i t hget hst
            simp only [rearm_tasks, rearm_activeTaskIndex] at hget ⊢
            rw [get?_setTaskStatusI _ _ _ _ (by omega)] at hget
            by_cases hc : (0 : Int) = (i : Int)
            · omega
            · rw [if_neg hc] at hget
              have hih := ih i t hget hst
              rename_i hidx
              omega
          · exact inProgAt_of_frame ih (by simp) (by simp)
      · split
        · exact inProgAt_of_frame ih (by simp) (by simp)
        · exact ih
    | approveE =>
      simp only [step, handleApproveTask]
      split
      · exact ih
      · rename_i hidx
        have h0 : 0 ≤ s0.activeTaskIndex := by
          have h1 := hinv.1
          omega
        split
        · rename_i hlt
          intro i t hget hst
          simp only [rearm_tasks, rearm_activeTaskIndex] at hget ⊢
          rw [get?_setTaskStatusI _ _ _ _ (by omega)] at hget
          by_cases hc : s0.activeTaskIndex + 1 = (i : Int)
          · omega
          · rw [if_neg hc] at hget
            rw [get?_setTaskStatusI _ _ _ _ h0] at hget
            by_cases hc2 : s0.activeTaskIndex = (i : Int)
            · rw [if_pos hc2] at hget
              obtain ⟨a, ha, rfl⟩ := Option.map_eq_some'.mp hget
              simp at hst
            · rw [if_neg hc2] at hget
              have hih := ih i t hget hst
              omega
        · intro i t hget hst
          simp only [rearm_tasks, rearm_activeTaskIndex] at hget ⊢
          rw [get?_setTaskStatusI _ _ _ _ h0] at hget
          by_cases hc2 : s0.activeTaskIndex = (i : Int)
          · rw [if_pos hc2] at hget
            obtain ⟨a, ha, rfl⟩ := Option.map_eq_some'.mp hget
            simp at hst
          · rw [if_neg hc2] at hget
            exact ih i t hget hst
    | pauseReviewE =>
      simp only [step, pauseReview]
      split
      · exact inProgAt_of_frame ih (by simp) (by simp)
      · exact ih
    | timerFireE t =>
      simp only [step, timerElapsed]
      split
      · exact inProgAt_of_frame ih (by simp) (by simp)
      · exact ih
    | voiceClickE =>
      simp only [step, voiceClick]
      split
      · exact ih
      · exact inProgAt_of_frame ih rfl rfl
    | voiceStartE =>
      simp only [step, voiceOnStart]
      split
      · exact ih
      · exact inProgAt_of_frame ih rfl rfl
    | voiceEndE =>
      exact inProgAt_of_frame ih rfl rfl
    | voiceErrorE r msg =>
      simp only [step, voiceOnError]
      split
      · exact ih
      · exact inProgAt_of_frame ih rfl rfl

/-- Claim C4 as amended: in every state reachable through the orchestrator's
operations other than a command merge (generatePlan request and response,
start/resume, pause, pause-for-review, approve, timer-elapsed, and the voice
submission machinery short of a result), at most one task in the queue has
status in-progress: any two in-progress positions coincide.  A command merge
applies the interpreter's returned statuses verbatim and can therefore
produce more than one in-progress task (see the counterexample). -/
theorem C4_at_most_one_active (s : OpsState) (hr : ReachNM s)
    (i j : Nat) (ti tj : RecoveryTask)
    (hi : s.tasks.get? i = some ti) (hj : s.tasks.get? j = some tj)
    (hpi : ti.status = TaskStatus.inProgress)
    (hpj : tj.status = TaskStatus.inProgress) : i = j := by
  have h1 := reachNM_inProgAt hr i ti hi hpi
  have h2 := reachNM_inProgAt hr j tj hj hpj
  omega

/-- The first default task as it looks once started. -/
def startedAssessTask : RecoveryTask :=
  { id := "1", title := "Assess Damage",
    description := "Drone survey of affected area",
    status := TaskStatus.inProgress, assignedAgent := "Recon Unit",
    estimatedTime := "2 hours" }

/-- Witness for C4 in the merge-free reachable state sExec, whose single
in-progress task sits at position 0. -/
theorem C4_witness :
    sExec.tasks.get? 0 = some startedAssessTask ∧ (0 : Nat) = 0 :=
  ⟨by decide,
   C4_at_most_one_active sExec reachNM_sExec 0 0 startedAssessTask startedAssessTask
     (by decide) (by decide) (by decide) (by decide)⟩

/-- An interpreter response carrying two in-progress tasks at once. -/
def twoActive : List RecoveryTask :=
  [ { id := "a", title := "Alpha", description := "First front",
      status := TaskStatus.inProgress, assignedAgent := "A1",
      estimatedTime := "1 hour" },
    { id := "b", title := "Bravo", description := "Second front",
      status := TaskStatus.inProgress, assignedAgent := "A2",
      estimatedTime := "2 hours" } ]

/-- A reachable state produced by a command merge whose interpreter response
marks two tasks in-progress. -/
def sTwoActive : OpsState :=
  step (step initState Event.voiceClickE)
    (Event.voiceResultE 0 "mark all active" (some (some twoActive, some "Done.")))

theorem reach_sTwoActive : Reach sTwoActive :=
  Reach.next (Reach.next Reach.init Event.voiceClickE)
    (Event.voiceResultE 0 "mark all active" (some (some twoActive, some "Done.")))

/-- Counterexample to claim C4 as stated: with the command merge included
among the operations, a reachable state can hold two in-progress tasks,
because the merge applies the interpreter's returned queue verbatim. -/
theorem C4_counterexample :
    Reach sTwoActive ∧
    (sTwoActive.tasks.get? 0).map RecoveryTask.status = some TaskStatus.inProgress ∧
    (sTwoActive.tasks.get? 1).map RecoveryTask.status = some TaskStatus.inProgress :=
  ⟨reach_sTwoActive, by decide, by decide⟩

/-! ### Claim C1: full run to completion -/

/-- Firing the currently scheduled task-elapsed timeout (the claim's
timer-elapsed event); does nothing when none is scheduled. -/
def fireTimer (s : OpsState) : OpsState :=
  match s.pendingTimer with
  | some t => step s (Event.timerFireE t)
  | none => s

/-- One approval round: the scheduled timer elapses, then the commander
approves. -/
def execRound (s : OpsState) : OpsState := step (fireTimer s) Event.approveE

/-- n approval rounds in sequence. -/
def iterateRounds : Nat → OpsState → OpsState
  | 0, s => s
  | n + 1, s => iterateRounds n (execRound s)

/-- Expected status of task i when the run is positioned at task k. -/
def statusFor (k i : Nat) : TaskStatus :=
  if i < k then TaskStatus.completed
  else if i = k then TaskStatus.inProgress
  else TaskStatus.pending

/-- Mid-run shape: executing task k of n, with a timeout scheduled, tasks
before k completed, task k in progress, tasks after k pending. -/
def MidRun (n k : Nat) (s : OpsState) : Prop :=
  s.status = AgentStatus.EXECUTING ∧
  s.activeTaskIndex = (k : Int) ∧
  s.tasks.length = n ∧ k < n ∧
  (∃ t, s.pendingTimer = some t) ∧
  ∀ i, i < n → (s.tasks.get? i).map RecoveryTask.status = some (statusFor k i)

@[simp] theorem length_setTaskStatusI (ts : List RecoveryTask) (i : Int)
    (st : TaskStatus) : (setTaskStatusI ts i st).length = ts.length := by
  unfold setTaskStatusI
  split
  · rfl
  · simp

theorem rearm_armed (x : OpsState) (h1 : x.status = AgentStatus.EXECUTING)
    (h2 : x.activeTaskIndex < (x.tasks.length : Int)) :
    (rearm x).pendingTimer = some x.nextTimerId := by
  unfold rearm
  rw [if_pos ⟨h1, h2⟩]

theorem fireTimer_spec (s : OpsState) (t : Nat) (ht : s.pendingTimer = some t) :
    (fireTimer s).status = AgentStatus.AWAITING_APPROVAL ∧
    (fireTimer s).tasks = s.tasks ∧
    (fireTimer s).activeTaskIndex = s.activeTaskIndex := by
  unfold fireTimer
  rw [ht]
  refine ⟨?_, ?_, ?_⟩ <;> simp [step, timerElapsed, ht]

theorem approve_advance_fields (s1 : OpsState) (k : Nat)
    (hidx : s1.activeTaskIndex = (k : Int))
    (hlt : (k : Int) + 1 < (s1.tasks.length : Int)) :
    (step s1 Event.approveE).status = AgentStatus.EXECUTING ∧
    (step s1 Event.approveE).activeTaskIndex = (k : Int) + 1 ∧
    (step s1 Event.approveE).tasks =
      setTaskStatusI (setTaskStatusI s1.tasks (k : Int) TaskStatus.completed)
        ((k : Int) + 1) TaskStatus.inProgress ∧
    (∃ u, (step s1 Event.approveE).pendingTimer = some u) := by
  have hne : ¬ ((k : Int) = -1) := by omega
  have hcond : (k : Int) + 1 <
      ((setTaskStatusI s1.tasks (k : Int) TaskStatus.completed).length : Int) := by
    rw [length_setTaskStatusI]
    exact hlt
  refine ⟨?_, ?_, ?_, ?_⟩
  · simp only [step, handleApproveTask, hidx, if_neg hne, if_pos hcond, rearm_status]
  · simp only [step, handleApproveTask, hidx, if_neg hne, if_pos hcond,
      rearm_activeTaskIndex]
  · simp only [step, handleApproveTask, hidx, if_neg hne, if_pos hcond, rearm_tasks]
  · simp only [step, handleApproveTask, hidx, if_neg hne, if_pos hcond]
    exact ⟨_, rearm_armed _ rfl (by simp; omega)⟩

theorem approve_final_fields (s1 : OpsState) (k : Nat)
    (hidx : s1.activeTaskIndex = (k : Int))
    (hge : ¬ ((k : Int) + 1 < (s1.tasks.length : Int))) :
    (step s1 Event.approveE).status = AgentStatus.COMPLETED ∧
    (step s1 Event.approveE).tasks =
      setTaskStatusI s1.tasks (k : Int) TaskStatus.completed := by
  have hne : ¬ ((k : Int) = -1) := by omega
  have hcond : ¬ ((k : Int) + 1 <
      ((setTaskStatusI s1.tasks (k : Int) TaskStatus.completed).length : Int)) := by
    rw [length_setTaskStatusI]
    exact hge
  constructor
  · simp only [step, handleApproveTask, hidx, if_neg hne, if_neg hcond, rearm_status]
  · simp only [step, handleApproveTask, hidx, if_neg hne, if_neg hcond, rearm_tasks]

theorem get?_isSome_of_status {ts : List RecoveryTask} {i : Nat} {st : TaskStatus}
    (h : (ts.get? i).map RecoveryTask.status = some st) :
    ∃ τ, ts.get? i = some τ ∧ τ.status = st := by
  cases hg : ts.get? i with
  | none => rw [hg] at h; simp at h
  | some τ =>
    rw [hg] at h
    simp only [Option.map_some'] at h
    exact ⟨τ, rfl, Option.some.inj h⟩

theorem execRound_midrun (n k : Nat) (s : OpsState) (hm : MidRun n k s)
    (hlt : k + 1 < n) : MidRun n (k + 1) (execRound s) := by
  obtain ⟨hst, hidx, hlen, hkn, ⟨t, ht⟩, hstat⟩ := hm
  obtain ⟨f1, f2, f3⟩ := fireTimer_spec s t ht
  have hidx1 : (fireTimer s).activeTaskIndex = (k : Int) := by rw [f3, hidx]
  have hlen1 : (k : Int) + 1 < ((fireTimer s).tasks.length : Int) := by
    rw [f2, hlen]
    omega
  obtain ⟨a1, a2, a3, a4⟩ := approve_advance_fields (fireTimer s) k hidx1 hlen1
  unfold execRound
  refine ⟨a1, ?_, ?_, hlt, a4, ?_⟩
  · rw [a2]
    omega
  · rw [a3, length_setTaskStatusI, length_setTaskStatusI, f2, hlen]
  · intro i hin
    rw [a3, f2]
    rw [get?_setTaskStatusI _ _ _ _ (by omega)]
    by_cases hc : (k : Int) + 1 = (i : Int)
    · rw [if_pos hc]
      rw [get?_setTaskStatusI _ _ _ _ (by omega), if_neg (by omega)]
      obtain ⟨τ, hg, hs⟩ := get?_isSome_of_status (hstat i hin)
      rw [hg]
      have : statusFor (k + 1) i = TaskStatus.inProgress := by
        unfold statusFor
        rw [if_neg (by omega), if_pos (by omega)]
      rw [this]
      rfl
    · rw [if_neg hc]
      rw [get?_setTaskStatusI _ _ _ _ (by omega)]
      by_cases hc2 : (k : Int) = (i : Int)
      · rw [if_pos hc2]
        obtain ⟨τ, hg, hs⟩ := get?_isSome_of_status (hstat i hin)
        rw [hg]
        have : statusFor (k + 1) i = TaskStatus.completed := by
          unfold statusFor
          rw [if_pos (by omega)]
        rw [this]
        rfl
      · rw [if_neg hc2]
        have heq : statusFor k i = statusFor (k + 1) i := by
          unfold statusFor
          split_ifs <;> first | rfl | omega
        rw [← heq]
        exact hstat i hin

theorem execRound_final (n k : Nat) (s : OpsState) (hm : MidRun n k s)
    (heq : k + 1 = n) :
    (execRound s).status = AgentStatus.COMPLETED ∧
    (execRound s).tasks.length = n ∧
    ∀ i, i < n →
      ((execRound s).tasks.get? i).map RecoveryTask.status =
        some TaskStatus.completed := by
  obtain ⟨hst, hidx, hlen, hkn, ⟨t, ht⟩, hstat⟩ := hm
  obtain ⟨f1, f2, f3⟩ := fireTimer_spec s t ht
  have hidx1 : (fireTimer s).activeTaskIndex = (k : Int) := by rw [f3, hidx]
  have hge : ¬ ((k : Int) + 1 < ((fireTimer s).tasks.length : Int)) := by
    rw [f2, hlen]
    omega
  obtain ⟨a1, a2⟩ := approve_final_fields (fireTimer s) k hidx1 hge
  unfold execRound
  refine ⟨a1, ?_, ?_⟩
  · rw [a2, length_setTaskStatusI, f2, hlen]
  · intro i hin
    rw [a2, f2]
    rw [get?_setTaskStatusI _ _ _ _ (by omega)]
    by_cases hc : (k : Int) = (i : Int)
    · rw [if_pos hc]
      obtain ⟨τ, hg, hs⟩ := get?_isSome_of_status (hstat i hin)
      rw [hg]
      rfl
    · rw [if_neg hc]
      have : statusFor k i = TaskStatus.completed := by
        unfold statusFor
        rw [if_pos (by omega)]
      rw [← this]
      exact hstat i hin

theorem iterate_completes (j : Nat) : ∀ (n k : Nat) (s : OpsState),
    MidRun n k s → k + j = n →
    (iterateRounds j s).status = AgentStatus.COMPLETED ∧
    (iterateRounds j s).tasks.length = n ∧
    ∀ i, i < n →
      ((iterateRounds j s).tasks.get? i).map RecoveryTask.status =
        some TaskStatus.completed := by
  induction j with
  | zero =>
    intro n k s hm heq
    have := hm.2.2.2.1
    omega
  | succ j ih =>
    intro n k s hm heq
    by_cases hj : j = 0
    · subst hj
      exact execRound_final n k s hm (by omega)
    · exact ih n (k + 1) (execRound s) (execRound_midrun n k s hm (by omega)) (by omega)

theorem toggle_start_midrun (s : OpsState) (h1 : s.status = AgentStatus.IDLE)
    (h2 : s.activeTaskIndex = -1) (h3 : s.tasks ≠ [])
    (h4 : ∀ t ∈ s.tasks, t.status = TaskStatus.pending) :
    MidRun s.tasks.length 0 (step s Event.toggleE) := by
  have hlen : ¬ s.tasks.length = 0 := by
    simpa [List.length_eq_zero] using h3
  have hstep : step s Event.toggleE =
      rearm { s with
              status := AgentStatus.EXECUTING
              activeTaskIndex := 0
              tasks := setTaskStatusI s.tasks 0 TaskStatus.inProgress
              tasksRef := s.nextRef
              nextRef := s.nextRef + 1
              logs := s.logs ++
                ["[SYSTEM] Operation Commenced.",
                 s!"[STARTED] {taskTitleI (setTaskStatusI s.tasks 0 TaskStatus.inProgress) 0} - Agent: {taskAgentI (setTaskStatusI s.tasks 0 TaskStatus.inProgress) 0}"] } := by
    simp [step, toggleExecution, h1, h2, hlen]
  rw [hstep]
  refine ⟨by simp, by simp, by simp, by omega, ?_, ?_⟩
  · refine ⟨_, rearm_armed _ rfl ?_⟩
    simp
    omega
  · intro i hin
    simp only [rearm_tasks]
    rw [get?_setTaskStatusI _ _ _ _ (by omega)]
    by_cases hc : (0 : Int) = (i : Int)
    · rw [if_pos hc]
      have hi0 : i = 0 := by omega
      subst hi0
      cases hg : s.tasks.get? 0 with
      | none =>
        rw [List.get?_eq_none] at hg
        omega
      | some τ => rfl
    · rw [if_neg hc]
      cases hg : s.tasks.get? i with
      | none =>
        rw [List.get?_eq_none] at hg
        omega
      | some τ =>
        have hmem : τ ∈ s.tasks := List.get?_mem hg
        have hp : τ.status = TaskStatus.pending := h4 τ hmem
        have : statusFor 0 i = TaskStatus.pending := by
          unfold statusFor
          rw [if_neg (by omega), if_neg (by omega)]
        rw [this]
        simp [hp]

/-- Claim C1: for every non-empty queue of n tasks, all pending, starting
from operation state IDLE with activeTaskIndex -1: after the toggle (start),
then n repetitions of (timer-elapsed event, approve), the state is COMPLETED
and every task in the queue has status completed. -/
theorem C1_run_to_completion (s : OpsState) (h1 : s.status = AgentStatus.IDLE)
    (h2 : s.activeTaskIndex = -1) (h3 : s.tasks ≠ [])
    (h4 : ∀ t ∈ s.tasks, t.status = TaskStatus.pending) :
    (iterateRounds s.tasks.length (step s Event.toggleE)).status =
      AgentStatus.COMPLETED ∧
    ∀ t ∈ (iterateRounds s.tasks.length (step s Event.toggleE)).tasks,
      t.status = TaskStatus.completed := by
  have hmid := toggle_start_midrun s h1 h2 h3 h4
  have hres := iterate_completes s.tasks.length s.tasks.length 0
    (step s Event.toggleE) hmid (by omega)
  refine ⟨hres.1, ?_⟩
  intro t htmem
  obtain ⟨i, hi⟩ := List.mem_iff_get?.mp htmem
  have hilt : i < s.tasks.length := by
    have := List.get?_eq_some.mp hi
    obtain ⟨hb, _⟩ := this
    rw [hres.2.1] at hb
    exact hb
  have := hres.2.2 i hilt
  rw [hi] at this
  simp only [Option.map_some'] at this
  exact Option.some.inj this

/-- Witness for C1: a concrete 2-task pending queue run to completion. -/
def sTwoPending : OpsState :=
  { tasks :=
      [ { id := "t1", title := "Clear Roads", description := "Open route one",
          status := TaskStatus.pending, assignedAgent := "Engineering",
          estimatedTime := "4 hours" },
        { id := "t2", title := "Restore Power", description := "Grid segment two",
          status := TaskStatus.pending, assignedAgent := "Utility Crew",
          estimatedTime := "6 hours" } ]
    status := AgentStatus.IDLE, activeTaskIndex := -1, logs := []
    isListening := false, isProcessingVoice := false, pendingVoice := []
    planPending := false, pendingTimer := none, nextTimerId := 0
    tasksRef := 0, nextRef := 1 }

theorem C1_witness :
    (iterateRounds sTwoPending.tasks.length (step sTwoPending Event.toggleE)).status =
      AgentStatus.COMPLETED ∧
    ∀ t ∈ (iterateRounds sTwoPending.tasks.length (step sTwoPending Event.toggleE)).tasks,
      t.status = TaskStatus.completed :=
  C1_run_to_completion sTwoPending rfl rfl (by decide) (by decide)
